import Mathlib

/-!
# Verification of slidev-addon-preload-images

A shallow embedding of the addon's image-preloading core, translated from the
TypeScript sources:

* `src/setup/main.ts` (primary setup; namespace `Main`): module-level `loaded`
  and `loading` sets, `extractImages`, `getSlideImages`, `preload`,
  `preloadSlide`, `preloadSequentially`, and the `defineAppSetup` body.
* the batch-scheduler variant (namespace `Core`): four-set `PreloadState`
  (`queued`/`loading`/`loaded`/`failed`), `extractImageUrls`,
  `extractSlideImages`, `preloadImage`, `preloadBatch`, `preloadInIdle`,
  and its `defineAppSetup` body.
* the `PreloadImages` Vue component (namespace `Component`): its private
  `preloadedUrls` cache, `preloadImage`, `preloadAll`, and the
  `onMounted`/`watch` registrations.

Modelling conventions: JavaScript `Set<string>` values become `List String`
with guarded insertion (an element is only consed when absent, so the list
stays duplicate-free); every `img.src = url` assignment (the one network
action) is logged by appending `url` to a `requests` list; the
resolve-on-load / resolve-on-error promise discipline is modelled by an
explicit `PromiseStatus` (was an already-resolved promise returned, or one
that settles with the load?) and a `Settled` outcome (JS resolve vs reject).
The single-threaded event-loop semantics lets the completed-load state
transition be an explicit function applied at the completion point.
-/

/-- The characters matched by the JavaScript regex class `\s` (common cases:
space, tab, line feed, carriage return, vertical tab, form feed; the exotic
Unicode members are not used by any input considered here). -/
def jsWhitespace (c : Char) : Bool :=
  c = ' ' || c = '\t' || c = '\n' || c = '\r' || c = Char.ofNat 11 || c = Char.ofNat 12

/-- The single-quote character (U+0027). -/
def squoteChar : Char := Char.ofNat 39

/-- The backtick character (U+0060). -/
def btickChar : Char := Char.ofNat 96

/-- JS `s.startsWith(pre)` over code points. -/
def jsStartsWith (s pre : String) : Bool := pre.data.isPrefixOf s.data

/-- JS `s.toLowerCase()` over code points (ASCII as used here). -/
def lowerStr (s : String) : String := ⟨s.data.map Char.toLower⟩

/-- JS `s.endsWith(suf)` over code points. -/
def jsEndsWith (s suf : String) : Bool := suf.data.isSuffixOf s.data

/-- Driver shared by all regex scans: the JS idiom
`while ((m = re.exec(content))) urls.push(m[1])` with a `/g` regex.
`tryAt l` attempts a match anchored at the head of `l`, returning the capture
group and the total match length; on success the scan resumes after the
match, on failure it advances one character (as `exec` does). All patterns
below match at least one character, so `max len 1` equals `len`. -/
def regexScanAux (tryAt : List Char → Option (String × Nat)) :
    Nat → List Char → List String
  | 0, _ => []
  | _, [] => []
  | fuel + 1, c :: cs =>
    match tryAt (c :: cs) with
    | some (cap, len) => cap :: regexScanAux tryAt fuel ((c :: cs).drop (max len 1))
    | none => regexScanAux tryAt fuel cs

/-- The scan with enough fuel: every step consumes at least one character,
so `l.length` steps always suffice. -/
def regexScan (tryAt : List Char → Option (String × Nat)) (l : List Char) :
    List String :=
  regexScanAux tryAt l.length l

/-- Case-insensitive character comparison (the `/i` regex flag). -/
def lcEq (c d : Char) : Bool := c.toLower = d.toLower

/-- Case-insensitive literal prefix test. -/
def startsWithCI : List Char → List Char → Bool
  | [], _ => true
  | _ :: _, [] => false
  | p :: ps, c :: cs => lcEq p c && startsWithCI ps cs

/-- Character class `[^)\s"']` of the markdown capture group. -/
def mdCapChar (c : Char) : Bool :=
  !(c = ')' || jsWhitespace c || c = '"' || c = squoteChar)

/-- One anchored attempt of `/!\[[^\]]*\]\(([^)\s"']+)/g` (markdown images
`![alt](url)`): literal `![`, a maximal run of non-`]` characters, `](`,
then a non-empty capture of `[^)\s"']` characters. -/
def mdTryAt : List Char → Option (String × Nat)
  | '!' :: '[' :: cs =>
    let alt := cs.takeWhile (fun c => c != ']')
    match cs.drop alt.length with
    | ']' :: '(' :: cs2 =>
      let cap := cs2.takeWhile mdCapChar
      if cap.isEmpty then none
      else some (⟨cap⟩, 4 + alt.length + cap.length)
    | _ => none
  | _ => none

/-- The `src=["']([^"']+)` tail of the img-tag pattern: case-insensitive
`src=`, a quote, then a non-empty capture of non-quote characters. Returns
the capture and the number of characters consumed. -/
def srcTail (l : List Char) : Option (String × Nat) :=
  if startsWithCI ['s', 'r', 'c', '='] l then
    match l.drop 4 with
    | c :: cs =>
      if c = '"' || c = squoteChar then
        let cap := cs.takeWhile (fun d => !(d = '"' || d = squoteChar))
        if cap.isEmpty then none else some (⟨cap⟩, 5 + cap.length)
      else none
    | [] => none
  else none

/-- The `:?src=` tail: the greedy optional colon of `:?src=["']([^"']+)`.
If a colon is present but `src=` does not follow it, the regex backtracks to
the colon-less alternative, which then fails because `:` is not `s`; the
fallback call keeps that behaviour literal. -/
def colonSrcTail (l : List Char) : Option (String × Nat) :=
  match l with
  | ':' :: t =>
    match srcTail t with
    | some (cap, n) => some (cap, n + 1)
    | none => srcTail l
  | _ => srcTail l

/-- Backtracking search for the split point of `[^>]+` in the img-tag
pattern: try the longest run first (greedy), shrinking one character at a
time, exactly as the regex engine backtracks. `cs` is the text after
`<img`; the split `j` ranges from `run` down to `1`. -/
def htmlFindSplit (cs : List Char) : Nat → Option (String × Nat)
  | 0 => none
  | j + 1 =>
    match colonSrcTail (cs.drop (j + 1)) with
    | some (cap, n) => some (cap, 4 + (j + 1) + n)
    | none => htmlFindSplit cs j

/-- One anchored attempt of `/<img[^>]+:?src=["']([^"']+)/gi`: literal
`<img` (case-insensitive), at least one non-`>` character, optional `:`,
`src=`, a quote, and a non-empty capture of non-quote characters. -/
def htmlTryAt (l : List Char) : Option (String × Nat) :=
  if startsWithCI ['<', 'i', 'm', 'g'] l then
    let cs := l.drop 4
    let run := cs.takeWhile (fun c => c != '>')
    htmlFindSplit cs run.length
  else none

/-- Character class `[^"')]` of the CSS `url(...)` capture group. -/
def cssCapChar (c : Char) : Bool :=
  !(c = '"' || c = squoteChar || c = ')')

/-- One anchored attempt of `/url\(["']?([^"')]+)/g`: literal `url(`, an
optional quote, then a non-empty capture of `[^"')]` characters. When the
optional quote is consumed but the capture would be empty, backtracking to
the quote-less alternative also fails (the quote itself is excluded from the
capture class), so `none` is returned directly. -/
def cssTryAt : List Char → Option (String × Nat)
  | 'u' :: 'r' :: 'l' :: '(' :: cs =>
    let q : Nat := match cs with
      | c :: _ => if c = '"' || c = squoteChar then 1 else 0
      | [] => 0
    let cs2 := cs.drop q
    let cap := cs2.takeWhile cssCapChar
    if cap.isEmpty then none else some (⟨cap⟩, 4 + q + cap.length)
  | _ => none

/-- One anchored attempt of the batch variant's
`/background(?:-image)?:\s*url\(["']?([^"')]+)/gi`: case-insensitive
`background`, optional `-image`, `:`, optional whitespace, `url(`, optional
quote, non-empty capture. -/
def bgTryAt (l : List Char) : Option (String × Nat) :=
  if startsWithCI "background".data l then
    let l1 := l.drop 10
    let optLen : Nat := if startsWithCI "-image".data l1 then 6 else 0
    match l1.drop optLen with
    | ':' :: l3 =>
      let ws := l3.takeWhile jsWhitespace
      let l4 := l3.drop ws.length
      if startsWithCI "url(".data l4 then
        let cs := l4.drop 4
        let q : Nat := match cs with
          | c :: _ => if c = '"' || c = squoteChar then 1 else 0
          | [] => 0
        let cap := (cs.drop q).takeWhile cssCapChar
        if cap.isEmpty then none
        else some (⟨cap⟩, 10 + optLen + 1 + ws.length + 4 + q + cap.length)
      else none
    | _ => none
  else none

/-- One anchored attempt of the batch variant's
`/url\(["']?([^"')]+)["']?\)/g` (case-sensitive): like `cssTryAt` but the
capture must be followed by an optional quote and a closing parenthesis. -/
def cssCloseTryAt : List Char → Option (String × Nat)
  | 'u' :: 'r' :: 'l' :: '(' :: cs =>
    let q : Nat := match cs with
      | c :: _ => if c = '"' || c = squoteChar then 1 else 0
      | [] => 0
    let cs2 := cs.drop q
    let cap := cs2.takeWhile cssCapChar
    if cap.isEmpty then none
    else
      match cs2.drop cap.length with
      | ')' :: _ => some (⟨cap⟩, 4 + q + cap.length + 1)
      | c :: ')' :: _ =>
        if c = '"' || c = squoteChar then some (⟨cap⟩, 4 + q + cap.length + 2)
        else none
      | _ => none
  | _ => none

/-- The capture post-processing `match[1].replace(/["'`]/g, '')` of the Vue
style pattern: every double quote, single quote and backtick is removed. -/
def stripQuoteChars (s : String) : String :=
  ⟨s.data.filter (fun c => !(c = '"' || c = squoteChar || c = btickChar))⟩

/-- One anchored attempt of the batch variant's
`/backgroundImage:\s*["'`]url\(([^)]+)\)/g` (case-sensitive): literal
`backgroundImage:`, optional whitespace, one quote or backtick, `url(`,
a non-empty capture of non-`)` characters, then `)`. -/
def vueStyleTryAt (l : List Char) : Option (String × Nat) :=
  if l.take 16 = "backgroundImage:".data then
    let l1 := l.drop 16
    let ws := l1.takeWhile jsWhitespace
    match l1.drop ws.length with
    | q :: l3 =>
      if q = '"' || q = squoteChar || q = btickChar then
        if l3.take 4 = "url(".data then
          let cap := (l3.drop 4).takeWhile (fun c => c != ')')
          if cap.isEmpty then none
          else
            match (l3.drop 4).drop cap.length with
            | ')' :: _ => some (⟨cap⟩, 16 + ws.length + 1 + 4 + cap.length + 1)
            | _ => none
        else none
      else none
    | [] => none
  else none

/-- The suffix test `/\.(ext1|ext2|...)$/i`: the lower-cased URL ends with
one of the listed dotted extensions. -/
def hasImageExt (exts : List String) (u : String) : Bool :=
  exts.any (fun e => jsEndsWith (lowerStr u) e)

/-- `[...new Set(urls)]`: deduplication preserving first occurrences,
implemented with an accumulator of already-seen elements. -/
def jsSetDedupAux (seen : List String) : List String → List String
  | [] => []
  | x :: xs =>
    if x ∈ seen then jsSetDedupAux seen xs
    else x :: jsSetDedupAux (x :: seen) xs

/-- `[...new Set(urls)]` with no prior elements seen. -/
def jsSetDedup (l : List String) : List String := jsSetDedupAux [] l

/-- A slide record as the setup reads it: optional `content` text, optional
`source.raw` text, optional `frontmatter` and `meta` records. Record fields
are modelled as string-to-string association lists (the sources guard field
reads with `typeof fm[key] === 'string'`, so only string values matter). -/
structure Slide where
  content : Option String
  sourceRaw : Option String
  frontmatter : Option (List (String × String))
  meta : Option (List (String × String))

/-- The `preloadImages` configuration block, each field `none` when absent
(the sources read them with `??` defaults). -/
structure Config where
  enabled : Option Bool := none
  ahead : Option Nat := none
  priority : Option Nat := none
  concurrent : Option Nat := none
  urls : Option (List String) := none

/-- How a call that hands back a promise returned it: `resolvedNow` for an
already-resolved promise (`Promise.resolve()` or `resolve()` before any
network action), `pending` for a promise that settles only when the load's
`onload`/`onerror` handler runs. -/
inductive PromiseStatus where
  | resolvedNow
  | pending
deriving DecidableEq

/-- How a promise eventually settles: JS `resolve` vs `reject`. -/
inductive Settled where
  | resolved
  | rejected
deriving DecidableEq, BEq

/-- `Promise.all`: resolves when every member resolves, rejects if any
member rejects. -/
def promiseAll (l : List Settled) : Settled :=
  if l.all (fun x => x == Settled.resolved) then .resolved else .rejected

namespace Main

/-- `extractImages` of `src/setup/main.ts`: markdown matches, then HTML img
matches, then CSS `url(...)` matches restricted to known image extensions,
finally filtered to drop empty strings and `data:` URIs. -/
def extractImages (content : String) : List String :=
  if content = "" then []
  else
    let cl := content.data
    let urls := regexScan mdTryAt cl ++ regexScan htmlTryAt cl
      ++ (regexScan cssTryAt cl).filter
          (hasImageExt [".png", ".jpg", ".jpeg", ".gif", ".webp", ".svg", ".avif", ".bmp", ".ico"])
    urls.filter (fun u => !(u == "") && !(jsStartsWith u "data:"))

/-- The frontmatter keys scanned by `getSlideImages`. -/
def fmKeysList : List String := ["image", "background", "backgroundImage", "src", "cover"]

/-- The string values of the scanned frontmatter keys, in key order
(`slide?.frontmatter || slide?.meta || {}` resolves the record). -/
def fmValues (slide : Slide) : List String :=
  let fm := slide.frontmatter.getD (slide.meta.getD [])
  fmKeysList.filterMap (fun k => fm.lookup k)

/-- The truthiness-guarded extraction `if (text) urls.push(...extractImages(text))`:
absent and empty strings contribute nothing. -/
def truthyExtract : Option String → List String
  | some c => if c = "" then [] else extractImages c
  | none => []

/-- `getSlideImages` of `src/setup/main.ts`: content extraction, raw-source
extraction, then the frontmatter values, deduplicated first-occurrence-first
(`[...new Set(urls)]`). -/
def getSlideImages (slide : Slide) : List String :=
  jsSetDedup (truthyExtract slide.content ++ truthyExtract slide.sourceRaw
    ++ fmValues slide)

end Main
namespace Main

/-- The module-level mutable state of `src/setup/main.ts`: the `loaded` and
`loading` sets, plus the log of issued network requests (one entry per
`img.src = url` assignment). -/
structure MSt where
  loaded : List String
  loading : List String
  requests : List String
deriving DecidableEq

/-- The synchronous part of `preload(url)`: if the URL is already loaded or
loading, an already-resolved promise is returned and nothing else happens;
otherwise the URL is added to `loading`, the request is issued, and the
returned promise is pending until `onload`/`onerror` fires. -/
def preload (s : MSt) (url : String) : MSt × PromiseStatus :=
  if url ∈ s.loaded ∨ url ∈ s.loading then (s, .resolvedNow)
  else (⟨s.loaded, url :: s.loading, s.requests ++ [url]⟩, .pending)

/-- The completion handlers of `preload`: `onload` removes the URL from
`loading` and adds it to `loaded`; `onerror` only removes it from `loading`
(this variant records no failures). -/
def completeLoad (s : MSt) (url : String) (ok : Bool) : MSt :=
  if ok then ⟨url :: s.loaded, s.loading.erase url, s.requests⟩
  else ⟨s.loaded, s.loading.erase url, s.requests⟩

/-- One `preload` call run to completion (dispatch, then the handler for
outcome `ok`), the run-to-quiescence composition of `preload` and
`completeLoad`. -/
def preloadRun (s : MSt) (url : String) (ok : Bool) : MSt :=
  if url ∈ s.loaded ∨ url ∈ s.loading then s
  else completeLoad (preload s url).1 url ok

/-- How the promise returned by `preload` eventually settles, one branch per
`resolve` site of the source: the early `Promise.resolve()`, the `onload`
handler, and the `onerror` handler — every path resolves, none rejects. -/
def preloadSettle (s : MSt) (url : String) (ok : Bool) : Settled :=
  if url ∈ s.loaded ∨ url ∈ s.loading then .resolved
  else if ok then .resolved
  else .resolved

/-- `preloadSlide(images)` run to quiescence: filter out already-loaded
URLs, then preload each (the `Promise.all` of the source; outcomes are given
by `f`). -/
def preloadSlideRun (s : MSt) (images : List String) (f : String → Bool) : MSt :=
  (images.filter (fun u => decide (u ∉ s.loaded))).foldl
    (fun t u => preloadRun t u (f u)) s

/-- The startup priority slice `slideImages.slice(priorityStart,
priorityEnd)` of the `ahead > 0` branch, where `priorityStart =
max(current - ahead, 0)` and `priorityEnd = min(current + ahead + 1,
slides.length)` (natural subtraction is the clipped JS `Math.max(..., 0)`). -/
def priorityWindowSlides (imgs : List (List String)) (current ahead : Nat) :
    List (List String) :=
  (imgs.drop (current - ahead)).take
    (min (current + ahead + 1) imgs.length - (current - ahead))

/-- The indices the navigation watcher of the `ahead > 0` branch iterates
over: `for (let i = from; i < to; i++)` with `from = max(idx - ahead, 0)`
and `to = min(idx + ahead + 1, slideImages.length)`. -/
def navAccessedIndices (len idx ahead : Nat) : List Nat :=
  List.range' (idx - ahead) (min (idx + ahead + 1) len - (idx - ahead))

/-- The URL lists preloaded by one navigation event of the `ahead > 0`
branch: `slideImages[i]` for each visited index, concatenated. -/
def navWindowUrls (imgs : List (List String)) (idx ahead : Nat) : List String :=
  ((navAccessedIndices imgs.length idx ahead).map (fun i => (imgs[i]?).getD [])).flatten

/-- What the `defineAppSetup` body of `src/setup/main.ts` decides to do,
recorded declaratively: the resolved `ahead`, the per-slide URL index, the
slides preloaded in parallel at startup, the two sequential background
drains (forward from the window end, then backward from the window start),
and whether a navigation watcher was registered. -/
structure Plan where
  ahead : Nat
  slideImages : List (List String)
  startupSlides : List (List String)
  drainForward : List (List String)
  drainBackward : List (List String)
  watcherRegistered : Bool
deriving DecidableEq

/-- The `defineAppSetup` body of `src/setup/main.ts`: nothing happens
without the Slidev nav context or with `enabled === false`; otherwise
`ahead = config.ahead ?? 0`, and the `ahead === 0` branch preloads every
slide in parallel with no watcher and no drain, while the `ahead > 0` branch
preloads the bidirectional priority window, schedules the forward and
reversed-backward drains, and registers the navigation watcher. -/
def appSetup (cfg : Config) (navPresent : Bool) (slides : List Slide)
    (currentSlideNo : Option Nat) : Option Plan :=
  if navPresent = false then none
  else if cfg.enabled = some false then none
  else
    let ahead := cfg.ahead.getD 0
    let current := currentSlideNo.getD 1 - 1
    let slideImages := slides.map getSlideImages
    if ahead = 0 then
      some ⟨ahead, slideImages, slideImages, [], [], false⟩
    else
      let ps := current - ahead
      let pe := min (current + ahead + 1) slides.length
      some ⟨ahead, slideImages, (slideImages.drop ps).take (pe - ps),
        slideImages.drop pe, (slideImages.take ps).reverse, true⟩

end Main
namespace Core

/-- The batch variant's `PreloadState` (`queued`/`loading`/`loaded`/
`failed` sets), extended with the log of issued network requests. -/
structure St where
  queued : List String
  loading : List String
  loaded : List String
  failed : List String
  requests : List String
deriving DecidableEq

/-- The empty state the module initializes. -/
def St.init : St := ⟨[], [], [], [], []⟩

/-- The synchronous part of the batch variant's `preloadImage(url)`: an
already-loaded or in-flight URL resolves immediately with no further
action; otherwise the URL joins `loading`, leaves `queued`, the request is
issued, and the promise is pending until a handler runs. -/
def preloadImageStart (s : St) (url : String) : St × PromiseStatus :=
  if url ∈ s.loaded ∨ url ∈ s.loading then (s, .resolvedNow)
  else (⟨s.queued.erase url, url :: s.loading, s.loaded, s.failed,
    s.requests ++ [url]⟩, .pending)

/-- The completion handlers of the batch variant's `preloadImage`:
`onload` moves the URL from `loading` to `loaded`; `onerror` moves it from
`loading` to `failed`. Both call `resolve`. -/
def completeLoad (s : St) (url : String) (ok : Bool) : St :=
  if ok then ⟨s.queued, s.loading.erase url, url :: s.loaded, s.failed, s.requests⟩
  else ⟨s.queued, s.loading.erase url, s.loaded, url :: s.failed, s.requests⟩

/-- One `preloadImage` call run to completion (dispatch, then the handler
for outcome `ok`). -/
def preloadImageRun (s : St) (url : String) (ok : Bool) : St :=
  if url ∈ s.loaded ∨ url ∈ s.loading then s
  else completeLoad (preloadImageStart s url).1 url ok

/-- How the promise returned by the batch variant's `preloadImage`
eventually settles, one branch per `resolve` site (the early resolve, the
`onload` handler, the `onerror` handler) — every path resolves. -/
def preloadImageSettle (s : St) (url : String) (ok : Bool) : Settled :=
  if url ∈ s.loaded ∨ url ∈ s.loading then .resolved
  else if ok then .resolved
  else .resolved

/-- The queue filter at the top of `preloadBatch`: drop URLs already
loaded, loading, or failed. -/
def batchFilter (s : St) (urls : List String) : List String :=
  urls.filter (fun u =>
    decide (u ∉ s.loaded) && decide (u ∉ s.loading) && decide (u ∉ s.failed))

/-- The batching loop `for (let i = 0; i < queue.length; i += concurrent)`
with `queue.slice(i, i + concurrent)`: successive chunks of size `c`. The
source loop does not terminate when `concurrent = 0` and the queue is
non-empty; that unreachable case (the callers pass 4 and 2) is mapped to
the empty list, and every theorem using `chunks` assumes `0 < c`. -/
def chunks (c : Nat) (l : List α) : List (List α) :=
  if c = 0 then []
  else (List.range ((l.length + c - 1) / c)).map (fun i => (l.drop (i * c)).take c)

/-- A list of `preloadImage` calls run to completion in order, with
outcomes given by `f`. -/
def runAll (s : St) (urls : List String) (f : String → Bool) : St :=
  urls.foldl (fun t u => preloadImageRun t u (f u)) s

/-- `preloadBatch(urls, concurrent)` run to quiescence: filter the queue,
then process chunk after chunk (`await Promise.all(batch.map(preloadImage))`
settles one chunk entirely before the next is issued). -/
def preloadBatchRun (s : St) (urls : List String) (c : Nat) (f : String → Bool) : St :=
  (chunks c (batchFilter s urls)).foldl (fun t b => runAll t b f) s

/-- One URL of an idle batch in `preloadInIdle`'s `processNext`:
`if (!state.loaded.has(url) && !state.loading.has(url)) preloadImage(url)`,
dispatch only — the drain does not await completion before the next URL. -/
def idleStep (s : St) (u : String) : St :=
  if u ∈ s.loaded ∨ u ∈ s.loading then s
  else (preloadImageStart s u).1

/-- `preloadInIdle(urls, concurrent)` with every scheduled continuation run:
the queue is consumed in splices of size `c`, each URL guarded and
dispatched without awaiting. (Idle deadlines and timer fallbacks only decide
when continuations run, not what they dispatch.) -/
def idleDrainDispatch (s : St) (queue : List String) (c : Nat) : St :=
  (chunks c queue).foldl (fun t b => b.foldl idleStep t) s

/-- Phase 2's high-priority collection: `for (let i = 0; i <=
priorityAhead; i++)` reading `allImages.get(currentSlide - 1 + i)` when the
key exists; `current` is the 0-based position `currentSlide - 1`. The
`allImages.has(slideIndex)` guard is the in-bounds test of the index map. -/
def highPriorityUrls (allImages : List (List String)) (current ahead : Nat) :
    List String :=
  ((List.range (ahead + 1)).map (fun i => (allImages[current + i]?).getD [])).flatten

/-- The navigation watcher's upcoming collection: `for (let i = 1; i <=
priorityAhead; i++)` reading `allImages.get(newSlide - 1 + i)` when the key
exists; `current` is the 0-based position `newSlide - 1`, so the indices
read are `current + 1 .. current + ahead`. -/
def upcomingUrls (allImages : List (List String)) (current ahead : Nat) :
    List String :=
  ((List.range ahead).map (fun i => (allImages[current + 1 + i]?).getD [])).flatten

/-- The batch variant's `extractImageUrls`: markdown, img-tag, background,
extension-filtered CSS `url()`, and Vue style-binding matches in that
order, then the empty/`data:` filter. -/
def extractImageUrls (content : String) : List String :=
  if content = "" then []
  else
    let cl := content.data
    let urls := regexScan mdTryAt cl ++ regexScan htmlTryAt cl
      ++ regexScan bgTryAt cl
      ++ (regexScan cssCloseTryAt cl).filter
          (hasImageExt [".png", ".jpg", ".jpeg", ".gif", ".webp", ".svg", ".avif",
            ".bmp", ".ico", ".tif", ".tiff"])
      ++ (regexScan vueStyleTryAt cl).map stripQuoteChars
    urls.filter (fun u => !(u == "") && !(jsStartsWith u "data:"))

/-- The batch variant's `extractSlideImages`: content and raw-source
extraction, the five frontmatter properties (guarded by truthiness and
`typeof === 'string'`, so empty strings are skipped), the two
layout-specific `fm.image` pushes, then `[...new Set(...)]`. -/
def extractSlideImages (slide : Slide) : List String :=
  let contentUrls :=
    (match slide.content with
      | some c => if c = "" then [] else extractImageUrls c
      | none => [])
    ++ (match slide.sourceRaw with
      | some r => if r = "" then [] else extractImageUrls r
      | none => [])
  let fm := slide.frontmatter.getD (slide.meta.getD [])
  let fmUrls := ["image", "background", "backgroundImage", "src", "cover"].filterMap
    (fun k => match fm.lookup k with
      | some v => if v = "" then none else some v
      | none => none)
  let image := (fm.lookup "image").getD ""
  let layout := (fm.lookup "layout").getD ""
  let introUrls := if layout = "intro" ∧ image ≠ "" then [image] else []
  let layoutUrls :=
    if (layout = "image" ∨ layout = "image-left" ∨ layout = "image-right") ∧ image ≠ ""
    then [image] else []
  jsSetDedup (contentUrls ++ fmUrls ++ introUrls ++ layoutUrls)

/-- What the batch variant's `defineAppSetup` body computes and does,
recorded declaratively: the per-slide index, the deduplicated global URL
list, the high- and low-priority lists, the state after the startup burst
and the idle drain's dispatches, and whether the dev-mode diagnostic
surface (`window.__preloadImages__`) was installed. -/
structure SetupResult where
  allImages : List (List String)
  uniqueUrls : List String
  highPriority : List String
  lowPriority : List String
  finalState : St
  debugExposed : Bool

/-- The batch variant's `defineAppSetup` body: abort without the nav
context or with `enabled === false`; otherwise extract every slide's
images, add the configured extra URLs, dedupe, preload the (deduplicated)
high-priority set with `preloadBatch`, hand the rest to `preloadInIdle`
with background concurrency 2, and in dev mode expose the debug surface. -/
def appSetup (cfg : Config) (navPresent : Bool) (slides : List Slide)
    (currentSlideNo : Option Nat) (dev : Bool) (f : String → Bool) :
    Option SetupResult :=
  if navPresent = false then none
  else if cfg.enabled = some false then none
  else
    let priorityAhead := cfg.priority.getD 3
    let concurrent := cfg.concurrent.getD 4
    let additionalUrls := cfg.urls.getD []
    let allImages := slides.map extractSlideImages
    let uniqueUrls := jsSetDedup (allImages.flatten ++ additionalUrls)
    let current := currentSlideNo.getD 1 - 1
    let hp := highPriorityUrls allImages current priorityAhead
    let s1 := preloadBatchRun St.init (jsSetDedup hp) concurrent f
    let low := uniqueUrls.filter (fun u => !(hp.contains u))
    let s2 := idleDrainDispatch s1 low 2
    some ⟨allImages, uniqueUrls, hp, low, s2, dev⟩

end Core
namespace Component

/-- The `PreloadImages` component's private state: its own `preloadedUrls`
cache (disjoint from the setup's module state) and the request log. -/
structure CSt where
  preloadedUrls : List String
  requests : List String
deriving DecidableEq

/-- The synchronous part of the component's `preloadImage(url)`: a cached
URL returns `Promise.resolve()`; otherwise the request is issued and the
promise is pending. (`preloadedUrls` is only written by `onload`.) -/
def preloadImageStart (s : CSt) (url : String) : CSt × PromiseStatus :=
  if url ∈ s.preloadedUrls then (s, .resolvedNow)
  else (⟨s.preloadedUrls, s.requests ++ [url]⟩, .pending)

/-- The component's completion handlers: `onload` adds the URL to
`preloadedUrls`; `onerror` only warns. Both call `resolve`. -/
def completeLoad (s : CSt) (url : String) (ok : Bool) : CSt :=
  if ok then ⟨url :: s.preloadedUrls, s.requests⟩ else s

/-- The dispatch phase of `preloadAll()`: return early on an absent or
empty `props.urls`, otherwise start every `preloadImage` (the `map` inside
`Promise.all` issues every request before any completion is awaited). -/
def preloadAllDispatch (s : CSt) (urls : List String) : CSt :=
  if urls.isEmpty then s
  else urls.foldl (fun t u => (preloadImageStart t u).1) s

/-- The component's lifecycle registrations, recorded declaratively:
`onMounted(preloadAll)` and `watch(() => props.urls, preloadAll,
{ deep: true })`. -/
structure Decl where
  onMountedHandler : CSt → List String → CSt
  watchHandler : CSt → List String → CSt
  watchDeep : Bool

/-- The `<script setup>` body's registrations. -/
def decl : Decl := ⟨preloadAllDispatch, preloadAllDispatch, true⟩

end Component

namespace Spec

/-- Modelled from the spec: the union of per-slide URL sets for slide
indices `max(0,P) .. min(P+L, S-1)` (the forward priority window), as a
concatenation over the in-window, in-bounds indices. -/
def forwardWindowUnion (imgs : List (List String)) (p l : Nat) : List String :=
  (((List.range imgs.length).filter (fun i => decide (p ≤ i ∧ i ≤ p + l))).map
    (fun i => (imgs[i]?).getD [])).flatten

/-- Modelled from the spec: the union of per-slide URL sets for the
bidirectional window `[P-L, P+L]` clipped to deck bounds. -/
def bidiWindowUnion (imgs : List (List String)) (p l : Nat) : List String :=
  (((List.range imgs.length).filter (fun i => decide (p - l ≤ i ∧ i ≤ p + l))).map
    (fun i => (imgs[i]?).getD [])).flatten

end Spec

namespace Core

/-- Observable burst events: a fetch dispatch (the URL enters `inFlight`)
and a fetch completion (it leaves `inFlight`). -/
inductive Ev where
  | disp : String → Ev
  | comp : String → Ev
deriving DecidableEq

/-- Is the event a dispatch? -/
def isDisp : Ev → Bool
  | .disp _ => true
  | .comp _ => false

/-- Is the event a completion? -/
def isComp : Ev → Bool
  | .comp _ => true
  | .disp _ => false

/-- Number of burst-dispatched fetches in flight after a trace: dispatches
minus completions (an integer; every prefix of a well-formed trace keeps it
non-negative). -/
def inflight (t : List Ev) : Int :=
  (t.countP isDisp : Int) - (t.countP isComp : Int)

/-- The event trace of one chunk of `preloadBatch`: `d` tells which queue
members actually dispatch (an already-loaded/loading member resolves
without a request); all dispatches of the chunk are issued synchronously by
`batch.map(preloadImage)`, then `await Promise.all` lets every one of them
complete before the loop continues. Completion order within the chunk does
not affect the in-flight count, so dispatch order stands in for it. -/
def burstBlock (d : String → Bool) (b : List String) : List Ev :=
  let ds := b.filter d
  ds.map Ev.disp ++ ds.map Ev.comp

/-- The event trace of a whole `preloadBatch` burst over queue `q` with
concurrency `c`: the chunk traces in sequence. -/
def burstTrace (c : Nat) (d : String → Bool) (q : List String) : List Ev :=
  ((chunks c q).map (burstBlock d)).flatten

end Core
section Helpers

/-- Membership in the seen-accumulator dedup: an element appears iff it is
in the input and was not already seen. -/
theorem mem_jsSetDedupAux (u : String) :
    ∀ (l : List String) (seen : List String),
      u ∈ jsSetDedupAux seen l ↔ u ∈ l ∧ u ∉ seen := by
  intro l
  induction l with
  | nil => intro seen; simp [jsSetDedupAux]
  | cons x xs ih =>
    intro seen
    by_cases hx : x ∈ seen
    · simp only [jsSetDedupAux, if_pos hx, ih, List.mem_cons]
      constructor
      · rintro ⟨h1, h2⟩
        exact ⟨Or.inr h1, h2⟩
      · rintro ⟨h1 | h1, h2⟩
        · subst h1; exact absurd hx h2
        · exact ⟨h1, h2⟩
    · simp only [jsSetDedupAux, if_neg hx, List.mem_cons, ih]
      by_cases hux : u = x
      · subst hux; simp [hx]
      · simp [hux]

/-- `[...new Set(l)]` has exactly the members of `l`. -/
theorem mem_jsSetDedup (u : String) (l : List String) :
    u ∈ jsSetDedup l ↔ u ∈ l := by
  simp [jsSetDedup, mem_jsSetDedupAux]

/-- `chunks` of the empty queue is empty. -/
theorem chunks_nil {α : Type} (c : Nat) : Core.chunks c ([] : List α) = [] := by
  unfold Core.chunks
  split
  · rfl
  · rename_i hc
    have h0 : (List.length ([] : List α) + c - 1) / c = 0 :=
      Nat.div_eq_of_lt (by simp; omega)
    rw [h0]
    simp

/-- For a non-empty queue the batching loop produces the first slice
followed by the batches of the rest. -/
theorem chunks_cons {α : Type} (c : Nat) (hc : 0 < c) (l : List α) (hl : l ≠ []) :
    Core.chunks c l = l.take c :: Core.chunks c (l.drop c) := by
  unfold Core.chunks
  rw [if_neg (by omega), if_neg (by omega)]
  have hlen : 0 < l.length := List.length_pos.mpr hl
  have hcount : (l.length + c - 1) / c = ((l.drop c).length + c - 1) / c + 1 := by
    rw [List.length_drop]
    by_cases hlc : l.length ≤ c
    · have h1 : (l.length + c - 1) / c = 1 := by
        apply Nat.div_eq_of_lt_le <;> omega
      have h2 : (l.length - c + c - 1) / c = 0 := Nat.div_eq_of_lt (by omega)
      omega
    · have hsplit : l.length + c - 1 = (l.length - c + c - 1) + c := by omega
      rw [hsplit, Nat.add_div_right _ hc]
  rw [hcount, List.range_succ_eq_map, List.map_cons]
  congr 1
  · simp
  · rw [List.map_map]
    congr 1
    funext i
    simp only [Function.comp]
    rw [List.drop_drop]
    congr 2
    rw [Nat.succ_mul]
    omega

/-- Concatenating the batches of the batching loop gives back the queue. -/
theorem chunks_flatten {α : Type} (c : Nat) (hc : 0 < c) :
    ∀ (n : Nat) (l : List α), l.length ≤ n → (Core.chunks c l).flatten = l := by
  intro n
  induction n with
  | zero =>
    intro l hl
    have h0 : l = [] := List.length_eq_zero.mp (Nat.le_zero.mp hl)
    subst h0
    simp [chunks_nil]
  | succ n ih =>
    intro l hl
    match l with
    | [] => simp [chunks_nil]
    | x :: xs =>
      rw [chunks_cons c hc (x :: xs) (by simp)]
      rw [List.flatten_cons, ih ((x :: xs).drop c) (by
        simp only [List.length_drop, List.length_cons]
        simp only [List.length_cons] at hl
        omega)]
      exact List.take_append_drop c (x :: xs)

/-- Every batch produced by the batching loop has at most `c` elements. -/
theorem length_le_of_mem_chunks {α : Type} (c : Nat) (l : List α) (b : List α)
    (hb : b ∈ Core.chunks c l) : b.length ≤ c := by
  unfold Core.chunks at hb
  split at hb
  · simp at hb
  · rcases List.mem_map.mp hb with ⟨i, _, rfl⟩
    simp only [List.length_take]
    omega

/-- Every element of a batch comes from the queue. -/
theorem mem_of_mem_chunks {α : Type} (c : Nat) (l : List α) (b : List α) (x : α)
    (hb : b ∈ Core.chunks c l) (hx : x ∈ b) : x ∈ l := by
  unfold Core.chunks at hb
  split at hb
  · simp at hb
  · rcases List.mem_map.mp hb with ⟨i, _, rfl⟩
    exact List.drop_subset _ _ (List.take_subset _ _ hx)

/-- A property preserved by each fold step, restricted to list members,
holds of the fold result. -/
theorem foldl_inv_mem {σ β : Type} (P : σ → Prop) (g : σ → β → σ) :
    ∀ (l : List β), (∀ s b, b ∈ l → P s → P (g s b)) →
      ∀ s, P s → P (l.foldl g s) := by
  intro l
  induction l with
  | nil => intro _ s hs; exact hs
  | cons x xs ih =>
    intro hstep s hs
    exact ih (fun s b hb => hstep s b (List.mem_cons_of_mem _ hb)) (g s x)
      (hstep s x (List.mem_cons_self _ _) hs)

end Helpers
section InflightHelpers

/-- In-flight count is additive over concatenation. -/
theorem inflight_append (a b : List Core.Ev) :
    Core.inflight (a ++ b) = Core.inflight a + Core.inflight b := by
  simp only [Core.inflight, List.countP_append]
  push_cast
  ring

/-- A pure dispatch list counts its length. -/
theorem inflight_map_disp (l : List String) :
    Core.inflight (l.map Core.Ev.disp) = (l.length : Int) := by
  simp [Core.inflight, List.countP_map, Function.comp_def, Core.isDisp, Core.isComp,
    List.countP_true, List.countP_false]

/-- A pure completion list counts the negation of its length. -/
theorem inflight_map_comp (l : List String) :
    Core.inflight (l.map Core.Ev.comp) = -(l.length : Int) := by
  simp [Core.inflight, List.countP_map, Function.comp_def, Core.isDisp, Core.isComp,
    List.countP_true, List.countP_false]

/-- A chunk trace starts and ends balanced: as many completions as
dispatches. -/
theorem inflight_burstBlock (d : String → Bool) (b : List String) :
    Core.inflight (Core.burstBlock d b) = 0 := by
  simp [Core.burstBlock, inflight_append, inflight_map_disp, inflight_map_comp]

/-- Within one chunk trace, the in-flight count never exceeds the number of
dispatched chunk members. -/
theorem inflight_burstBlock_take (d : String → Bool) (b : List String) (n : Nat) :
    Core.inflight ((Core.burstBlock d b).take n) ≤ ((b.filter d).length : Int) := by
  set ds := b.filter d with hds
  simp only [Core.burstBlock, ← hds, List.take_append_eq_append_take]
  rw [inflight_append, ← List.map_take, ← List.map_take, inflight_map_disp,
    inflight_map_comp]
  have h1 : ((ds.take n).length : Int) ≤ (ds.length : Int) := by
    simp [List.length_take]
  have h2 : (0 : Int) ≤ ((ds.map Core.Ev.disp).length : Nat) := by positivity
  omega

/-- Sequencing balanced, individually bounded chunk traces keeps every
prefix of the whole burst bounded. -/
theorem inflight_flatten_take (c : Int) (hc : 0 ≤ c) :
    ∀ (blocks : List (List Core.Ev)),
      (∀ b ∈ blocks, (∀ n, Core.inflight (b.take n) ≤ c) ∧ Core.inflight b = 0) →
      ∀ n, Core.inflight ((blocks.flatten).take n) ≤ c := by
  intro blocks
  induction blocks with
  | nil =>
    intro _ n
    simp [Core.inflight]
    exact hc
  | cons B rest ih =>
    intro hB n
    have hBhead := hB B (List.mem_cons_self _ _)
    have hrest : ∀ b ∈ rest, (∀ n, Core.inflight (b.take n) ≤ c) ∧ Core.inflight b = 0 :=
      fun b hb => hB b (List.mem_cons_of_mem _ hb)
    rw [List.flatten_cons, List.take_append_eq_append_take, inflight_append]
    by_cases hn : n ≤ B.length
    · have h0 : n - B.length = 0 := by omega
      have hnil : Core.inflight ([] : List Core.Ev) = 0 := by
        simp [Core.inflight]
      rw [h0, List.take_zero, hnil]
      have := hBhead.1 n
      omega
    · rw [List.take_of_length_le (by omega)]
      rw [hBhead.2]
      have := ih hrest (n - B.length)
      omega

end InflightHelpers
section StateHelpers

/-- One completed `preloadImage` call keeps a loaded URL loaded. -/
theorem Core.loaded_mem_preloadImageRun (s : Core.St) (u : String) (ok : Bool)
    (url : String) (h : url ∈ s.loaded) :
    url ∈ (Core.preloadImageRun s u ok).loaded := by
  by_cases hg : u ∈ s.loaded ∨ u ∈ s.loading
  · simpa [Core.preloadImageRun, hg] using h
  · by_cases hok : ok <;>
      simp [Core.preloadImageRun, Core.preloadImageStart, Core.completeLoad, hg, hok, h]

/-- One completed `preloadImage` call keeps a failed URL failed. -/
theorem Core.failed_mem_preloadImageRun (s : Core.St) (u : String) (ok : Bool)
    (url : String) (h : url ∈ s.failed) :
    url ∈ (Core.preloadImageRun s u ok).failed := by
  by_cases hg : u ∈ s.loaded ∨ u ∈ s.loading
  · simpa [Core.preloadImageRun, hg] using h
  · by_cases hok : ok <;>
      simp [Core.preloadImageRun, Core.preloadImageStart, Core.completeLoad, hg, hok, h]

/-- One completed `preloadImage` call for a different URL leaves `url`'s
request count unchanged. -/
theorem Core.count_preloadImageRun_ne (s : Core.St) (u : String) (ok : Bool)
    (url : String) (hne : u ≠ url) :
    (Core.preloadImageRun s u ok).requests.count url = s.requests.count url := by
  have hb : (u == url) = false := beq_false_of_ne hne
  by_cases hg : u ∈ s.loaded ∨ u ∈ s.loading
  · simp [Core.preloadImageRun, hg]
  · by_cases hok : ok <;>
      simp [Core.preloadImageRun, Core.preloadImageStart, Core.completeLoad, hg, hok,
        List.count_append, List.count_singleton, hb]

/-- One completed `preloadImage` call never issues a request for an
already-loaded URL. -/
theorem Core.count_preloadImageRun_loaded (s : Core.St) (u : String) (ok : Bool)
    (url : String) (h : url ∈ s.loaded) :
    (Core.preloadImageRun s u ok).requests.count url = s.requests.count url := by
  by_cases hu : u = url
  · subst hu
    simp [Core.preloadImageRun, Or.inl h]
  · exact Core.count_preloadImageRun_ne s u ok url hu

/-- One idle-drain dispatch keeps a loaded URL loaded. -/
theorem Core.loaded_mem_idleStep (s : Core.St) (u : String)
    (url : String) (h : url ∈ s.loaded) :
    url ∈ (Core.idleStep s u).loaded := by
  by_cases hg : u ∈ s.loaded ∨ u ∈ s.loading
  · simpa [Core.idleStep, hg] using h
  · simpa [Core.idleStep, Core.preloadImageStart, hg] using h

/-- One idle-drain dispatch never issues a request for an already-loaded
URL. -/
theorem Core.count_idleStep_loaded (s : Core.St) (u : String)
    (url : String) (h : url ∈ s.loaded) :
    (Core.idleStep s u).requests.count url = s.requests.count url := by
  by_cases hg : u ∈ s.loaded ∨ u ∈ s.loading
  · simp [Core.idleStep, hg]
  · have hne : (u == url) = false := by
      refine beq_false_of_ne (fun he => ?_)
      exact hg (Or.inl (he ▸ h))
    simp [Core.idleStep, Core.preloadImageStart, hg, List.count_append,
      List.count_singleton, hne]

/-- One `preload` call of the primary setup keeps a loaded URL loaded. -/
theorem Main.loaded_mem_preloadRun (s : Main.MSt) (u : String) (ok : Bool)
    (url : String) (h : url ∈ s.loaded) :
    url ∈ (Main.preloadRun s u ok).loaded := by
  by_cases hg : u ∈ s.loaded ∨ u ∈ s.loading
  · simpa [Main.preloadRun, hg] using h
  · by_cases hok : ok <;>
      simp [Main.preloadRun, Main.preload, Main.completeLoad, hg, hok, h]

/-- One `preload` call of the primary setup never issues a request for an
already-loaded URL. -/
theorem Main.count_preloadRun_loaded (s : Main.MSt) (u : String) (ok : Bool)
    (url : String) (h : url ∈ s.loaded) :
    (Main.preloadRun s u ok).requests.count url = s.requests.count url := by
  by_cases hg : u ∈ s.loaded ∨ u ∈ s.loading
  · simp [Main.preloadRun, hg]
  · have hne : (u == url) = false := by
      refine beq_false_of_ne (fun he => ?_)
      exact hg (Or.inl (he ▸ h))
    by_cases hok : ok <;>
      simp [Main.preloadRun, Main.preload, Main.completeLoad, hg, hok,
        List.count_append, List.count_singleton, hne]

end StateHelpers
section WindowHelpers

/-- Membership in a defaulted optional slide entry is membership in the
in-bounds entry. -/
theorem mem_getD_iff (imgs : List (List String)) (j : Nat) (u : String) :
    u ∈ (imgs[j]?).getD [] ↔ ∃ h : j < imgs.length, u ∈ imgs[j] := by
  by_cases hj : j < imgs.length
  · rw [List.getElem?_eq_getElem hj]
    simp [hj]
  · rw [List.getElem?_eq_none_iff.mpr (by omega)]
    simp [hj]

/-- A URL found through a defaulted entry pins its index inside the deck. -/
theorem lt_of_mem_getD (imgs : List (List String)) (j : Nat) (u : String)
    (h : u ∈ (imgs[j]?).getD []) : j < imgs.length := by
  rcases (mem_getD_iff imgs j u).mp h with ⟨hj, _⟩
  exact hj

/-- Membership in the flatten of an index-mapped window. -/
theorem mem_flatten_map (f : Nat → List String) (ixs : List Nat) (u : String) :
    u ∈ (ixs.map f).flatten ↔ ∃ i ∈ ixs, u ∈ f i := by
  simp [List.mem_flatten]

/-- Membership in the flatten of a list of lists through defaulted
indexing. -/
theorem mem_flatten_iff_getD (L : List (List String)) (u : String) :
    u ∈ L.flatten ↔ ∃ k : Nat, u ∈ (L[k]?).getD [] := by
  rw [List.mem_flatten]
  constructor
  · rintro ⟨l, hl, hu⟩
    rcases List.mem_iff_getElem?.mp hl with ⟨k, hk⟩
    exact ⟨k, by rw [hk]; exact hu⟩
  · rintro ⟨k, hk⟩
    match h : L[k]? with
    | none => rw [h] at hk; simp at hk
    | some l =>
      rw [h] at hk
      exact ⟨l, List.getElem?_mem h, hk⟩

/-- The forward-window union of the spec, in index form. -/
theorem mem_forwardWindowUnion (imgs : List (List String)) (p l : Nat) (u : String) :
    u ∈ Spec.forwardWindowUnion imgs p l ↔
      ∃ j, p ≤ j ∧ j ≤ p + l ∧ u ∈ (imgs[j]?).getD [] := by
  unfold Spec.forwardWindowUnion
  rw [mem_flatten_map]
  constructor
  · rintro ⟨j, hj, hu⟩
    rcases List.mem_filter.mp hj with ⟨_, hcond⟩
    rcases of_decide_eq_true hcond with ⟨h1, h2⟩
    exact ⟨j, h1, h2, hu⟩
  · rintro ⟨j, h1, h2, hu⟩
    have hj : j < imgs.length := lt_of_mem_getD imgs j u hu
    refine ⟨j, List.mem_filter.mpr ⟨List.mem_range.mpr hj, decide_eq_true ⟨h1, h2⟩⟩, hu⟩

/-- The bidirectional-window union of the spec, in index form. -/
theorem mem_bidiWindowUnion (imgs : List (List String)) (p l : Nat) (u : String) :
    u ∈ Spec.bidiWindowUnion imgs p l ↔
      ∃ j, p - l ≤ j ∧ j ≤ p + l ∧ u ∈ (imgs[j]?).getD [] := by
  unfold Spec.bidiWindowUnion
  rw [mem_flatten_map]
  constructor
  · rintro ⟨j, hj, hu⟩
    rcases List.mem_filter.mp hj with ⟨_, hcond⟩
    rcases of_decide_eq_true hcond with ⟨h1, h2⟩
    exact ⟨j, h1, h2, hu⟩
  · rintro ⟨j, h1, h2, hu⟩
    have hj : j < imgs.length := lt_of_mem_getD imgs j u hu
    refine ⟨j, List.mem_filter.mpr ⟨List.mem_range.mpr hj, decide_eq_true ⟨h1, h2⟩⟩, hu⟩

/-- The batch variant's startup collection, in index form. -/
theorem mem_highPriorityUrls (imgs : List (List String)) (p l : Nat) (u : String) :
    u ∈ Core.highPriorityUrls imgs p l ↔
      ∃ j, p ≤ j ∧ j ≤ p + l ∧ u ∈ (imgs[j]?).getD [] := by
  unfold Core.highPriorityUrls
  rw [mem_flatten_map]
  constructor
  · rintro ⟨i, hi, hu⟩
    exact ⟨p + i, by omega, by
      have := List.mem_range.mp hi
      omega, hu⟩
  · rintro ⟨j, h1, h2, hu⟩
    refine ⟨j - p, List.mem_range.mpr (by omega), ?_⟩
    have : p + (j - p) = j := by omega
    rw [this]
    exact hu

/-- The batch variant's navigation collection, in index form: it starts at
the slide after the current one. -/
theorem mem_upcomingUrls (imgs : List (List String)) (p l : Nat) (u : String) :
    u ∈ Core.upcomingUrls imgs p l ↔
      ∃ j, p + 1 ≤ j ∧ j ≤ p + l ∧ u ∈ (imgs[j]?).getD [] := by
  unfold Core.upcomingUrls
  rw [mem_flatten_map]
  constructor
  · rintro ⟨i, hi, hu⟩
    exact ⟨p + 1 + i, by omega, by
      have := List.mem_range.mp hi
      omega, hu⟩
  · rintro ⟨j, h1, h2, hu⟩
    refine ⟨j - (p + 1), List.mem_range.mpr (by omega), ?_⟩
    have : p + 1 + (j - (p + 1)) = j := by omega
    rw [this]
    exact hu

/-- The primary setup's startup slice, in index form. -/
theorem mem_priorityWindowSlides (imgs : List (List String)) (p l : Nat) (u : String) :
    u ∈ (Main.priorityWindowSlides imgs p l).flatten ↔
      ∃ j, p - l ≤ j ∧ j ≤ p + l ∧ u ∈ (imgs[j]?).getD [] := by
  unfold Main.priorityWindowSlides
  rw [mem_flatten_iff_getD]
  constructor
  · rintro ⟨k, hk⟩
    rw [List.getElem?_take] at hk
    split at hk
    · rw [List.getElem?_drop] at hk
      refine ⟨p - l + k, by omega, ?_, hk⟩
      rename_i hlt
      have : p - l + k < min (p + l + 1) imgs.length := by omega
      omega
    · simp at hk
  · rintro ⟨j, h1, h2, hu⟩
    have hj : j < imgs.length := lt_of_mem_getD imgs j u hu
    refine ⟨j - (p - l), ?_⟩
    rw [List.getElem?_take, if_pos (by omega), List.getElem?_drop]
    have : p - l + (j - (p - l)) = j := by omega
    rw [this]
    exact hu

/-- The primary setup's navigation collection, in index form. -/
theorem mem_navWindowUrls (imgs : List (List String)) (p l : Nat) (u : String) :
    u ∈ Main.navWindowUrls imgs p l ↔
      ∃ j, p - l ≤ j ∧ j ≤ p + l ∧ u ∈ (imgs[j]?).getD [] := by
  unfold Main.navWindowUrls Main.navAccessedIndices
  rw [mem_flatten_map]
  constructor
  · rintro ⟨i, hi, hu⟩
    have hr := List.mem_range'_1.mp hi
    have hj : i < imgs.length := lt_of_mem_getD imgs i u hu
    exact ⟨i, by omega, by omega, hu⟩
  · rintro ⟨j, h1, h2, hu⟩
    have hj : j < imgs.length := lt_of_mem_getD imgs j u hu
    refine ⟨j, List.mem_range'_1.mpr ⟨by omega, by omega⟩, hu⟩

end WindowHelpers
section Claims

/-- C1, counterexample: with `a.png` already in flight, `preload` returns an
already-resolved promise — it does not wait for the in-flight attempt to
resolve, contradicting the claim that the returned promise resolves only
when the existing attempt does (the batch variant's `preloadImage` behaves
the same way). -/
theorem claim_C1_counterexample :
    "a.png" ∈ (⟨[], ["a.png"], ["a.png"]⟩ : Main.MSt).loading
    ∧ (Main.preload ⟨[], ["a.png"], ["a.png"]⟩ "a.png").2 = PromiseStatus.resolvedNow
    ∧ (Main.preload ⟨[], ["a.png"], ["a.png"]⟩ "a.png").2 ≠ PromiseStatus.pending
    ∧ (Core.preloadImageStart ⟨[], ["a.png"], [], [], ["a.png"]⟩ "a.png").2
        = PromiseStatus.resolvedNow := by
  decide

/-- C1, amended: two concurrent `preload` calls for the same fresh URL issue
exactly one network request; the first call's promise is pending until the
load settles, while the second call's promise is already resolved at call
time (it does not wait for the in-flight attempt); a call for any in-flight
URL issues no request in either variant. -/
theorem claim_C1 (s : Main.MSt) (url : String)
    (h1 : url ∉ s.loaded) (h2 : url ∉ s.loading) :
    (Main.preload s url).2 = PromiseStatus.pending
    ∧ (Main.preload (Main.preload s url).1 url).2 = PromiseStatus.resolvedNow
    ∧ (Main.preload (Main.preload s url).1 url).1.requests = s.requests ++ [url]
    ∧ (∀ t : Core.St, url ∈ t.loading →
        (Core.preloadImageStart t url).1.requests = t.requests
        ∧ (Core.preloadImageStart t url).2 = PromiseStatus.resolvedNow) := by
  have hg : ¬(url ∈ s.loaded ∨ url ∈ s.loading) := by tauto
  refine ⟨by simp [Main.preload, hg], by simp [Main.preload, hg],
    by simp [Main.preload, hg], ?_⟩
  intro t ht
  constructor <;> simp [Core.preloadImageStart, Or.inr ht]

/-- C1, witness at a concrete fresh URL and empty state. -/
theorem claim_C1_witness :
    "a.png" ∉ (⟨[], [], []⟩ : Main.MSt).loaded
    ∧ "a.png" ∉ (⟨[], [], []⟩ : Main.MSt).loading
    ∧ ((Main.preload ⟨[], [], []⟩ "a.png").2 = PromiseStatus.pending
      ∧ (Main.preload (Main.preload ⟨[], [], []⟩ "a.png").1 "a.png").2
          = PromiseStatus.resolvedNow
      ∧ (Main.preload (Main.preload ⟨[], [], []⟩ "a.png").1 "a.png").1.requests
          = ([] : List String) ++ ["a.png"]
      ∧ (∀ t : Core.St, "a.png" ∈ t.loading →
          (Core.preloadImageStart t "a.png").1.requests = t.requests
          ∧ (Core.preloadImageStart t "a.png").2 = PromiseStatus.resolvedNow)) :=
  ⟨by decide, by decide, claim_C1 ⟨[], [], []⟩ "a.png" (by decide) (by decide)⟩

/-- C4: the fetch primitive never rejects — every `resolve` site of both
variants yields a resolved promise, a whole batch's `Promise.all` therefore
resolves, and in the concrete two-URL scenario where `b.png` fails, `a.png`
ends loaded, `b.png` ends failed, and neither outcome disturbs the other. -/
theorem claim_C4 :
    (∀ (s : Core.St) (url : String) (ok : Bool),
      Core.preloadImageSettle s url ok = Settled.resolved)
    ∧ (∀ (s : Main.MSt) (url : String) (ok : Bool),
      Main.preloadSettle s url ok = Settled.resolved)
    ∧ (∀ (s : Core.St) (urls : List String) (f : String → Bool),
      promiseAll (urls.map (fun u => Core.preloadImageSettle s u (f u)))
        = Settled.resolved)
    ∧ ("a.png" ∈ (Core.preloadBatchRun Core.St.init ["a.png", "b.png"] 4
          (fun u => u != "b.png")).loaded
      ∧ "b.png" ∈ (Core.preloadBatchRun Core.St.init ["a.png", "b.png"] 4
          (fun u => u != "b.png")).failed
      ∧ "b.png" ∉ (Core.preloadBatchRun Core.St.init ["a.png", "b.png"] 4
          (fun u => u != "b.png")).loaded) := by
  have hcore : ∀ (s : Core.St) (url : String) (ok : Bool),
      Core.preloadImageSettle s url ok = Settled.resolved := by
    intro s url ok
    unfold Core.preloadImageSettle
    split
    · rfl
    · split <;> rfl
  refine ⟨hcore, ?_, ?_, by decide⟩
  · intro s url ok
    unfold Main.preloadSettle
    split
    · rfl
    · split <;> rfl
  · intro s urls f
    have : (urls.map (fun u => Core.preloadImageSettle s u (f u))).all
        (fun x => x == Settled.resolved) = true := by
      rw [List.all_eq_true]
      intro x hx
      rcases List.mem_map.mp hx with ⟨u, _, rfl⟩
      rw [hcore s u (f u)]
      rfl
    simp [promiseAll, this]

/-- C7, counterexample: a `data:` URI supplied through a frontmatter field
survives into the slide's candidate URL set — the `data:` filter is applied
only to content-extracted URLs. -/
theorem claim_C7_counterexample :
    "data:abc" ∈ Main.getSlideImages ⟨none, none, some [("image", "data:abc")], none⟩
    ∧ jsStartsWith "data:abc" "data:" = true := by
  decide

/-- C7, amended: every candidate URL of a slide that did not come from a
frontmatter field (that is, every URL extracted from markdown, HTML or CSS
content) is free of the `data:` scheme prefix; frontmatter values bypass
the filter. -/
theorem claim_C7 (slide : Slide) (u : String)
    (h : u ∈ Main.getSlideImages slide) (hfm : u ∉ Main.fmValues slide) :
    jsStartsWith u "data:" = false := by
  have hextract : ∀ (o : Option String), u ∈ Main.truthyExtract o →
      jsStartsWith u "data:" = false := by
    intro o hin
    match o with
    | none => simp [Main.truthyExtract] at hin
    | some c =>
      by_cases hce : c = ""
      · simp [Main.truthyExtract, hce] at hin
      · rw [show Main.truthyExtract (some c) = Main.extractImages c by
          simp [Main.truthyExtract, hce]] at hin
        unfold Main.extractImages at hin
        split at hin
        · simp at hin
        · rcases List.mem_filter.mp hin with ⟨_, hcond⟩
          simp only [Bool.and_eq_true, Bool.not_eq_true'] at hcond
          exact hcond.2
  unfold Main.getSlideImages at h
  rw [mem_jsSetDedup] at h
  rcases List.mem_append.mp h with h' | hC
  · rcases List.mem_append.mp h' with hA | hB
    · exact hextract slide.content hA
    · exact hextract slide.sourceRaw hB
  · exact absurd hC hfm

/-- C7, witness: a markdown-extracted URL on a slide with empty
frontmatter. -/
theorem claim_C7_witness :
    "/x.png" ∈ Main.getSlideImages ⟨some "![a](/x.png)", none, some [], none⟩
    ∧ "/x.png" ∉ Main.fmValues ⟨some "![a](/x.png)", none, some [], none⟩
    ∧ jsStartsWith "/x.png" "data:" = false :=
  ⟨by decide, by decide,
    claim_C7 ⟨some "![a](/x.png)", none, some [], none⟩ "/x.png" (by decide) (by decide)⟩

/-- C8: with `enabled: false` both setup variants return before extracting
anything, dispatching anything, or installing the diagnostic surface —
the whole core is inert. -/
theorem claim_C8 (cfg : Config) (nav : Bool) (slides : List Slide)
    (cur : Option Nat) (dev : Bool) (f : String → Bool)
    (h : cfg.enabled = some false) :
    Main.appSetup cfg nav slides cur = none
    ∧ Core.appSetup cfg nav slides cur dev f = none := by
  cases nav <;> constructor <;> simp [Main.appSetup, Core.appSetup, h]

/-- C8, witness at a concrete disabled configuration. -/
theorem claim_C8_witness :
    (⟨some false, none, none, none, none⟩ : Config).enabled = some false
    ∧ (Main.appSetup ⟨some false, none, none, none, none⟩ true [] none = none
      ∧ Core.appSetup ⟨some false, none, none, none, none⟩ true [] none true
          (fun _ => true) = none) :=
  ⟨by decide,
    claim_C8 ⟨some false, none, none, none, none⟩ true [] none true (fun _ => true)
      (by decide)⟩

/-- C2: a priority burst with concurrency `c > 0` partitions the filtered
(not-loaded, not-loading, not-failed) queue into sequential batches of at
most `c` URLs whose concatenation is exactly the queue, and at every prefix
of the burst's event trace at most `c` burst-dispatched fetches are in
flight. -/
theorem claim_C2 (s : Core.St) (urls : List String) (c : Nat) (d : String → Bool)
    (hc : 0 < c) :
    (Core.chunks c (Core.batchFilter s urls)).flatten = Core.batchFilter s urls
    ∧ (∀ b ∈ Core.chunks c (Core.batchFilter s urls), b.length ≤ c)
    ∧ (∀ n, Core.inflight ((Core.burstTrace c d (Core.batchFilter s urls)).take n)
        ≤ (c : Int)) := by
  refine ⟨chunks_flatten c hc (Core.batchFilter s urls).length _ le_rfl,
    fun b hb => length_le_of_mem_chunks c _ b hb, ?_⟩
  intro n
  unfold Core.burstTrace
  refine inflight_flatten_take (c : Int) (by positivity) _ ?_ n
  intro B hB
  rcases List.mem_map.mp hB with ⟨b, hb, rfl⟩
  have hlen : b.length ≤ c := length_le_of_mem_chunks c _ b hb
  have hfd : ((b.filter d).length : Int) ≤ (c : Int) := by
    have h1 := List.length_filter_le d b
    exact_mod_cast le_trans h1 hlen
  exact ⟨fun m => le_trans (inflight_burstBlock_take d b m) hfd,
    inflight_burstBlock d b⟩

/-- C2, witness at a three-URL queue with concurrency 2. -/
theorem claim_C2_witness :
    (0 : Nat) < 2
    ∧ ((Core.chunks 2 (Core.batchFilter Core.St.init ["a", "b", "c"])).flatten
          = Core.batchFilter Core.St.init ["a", "b", "c"]
      ∧ (∀ b ∈ Core.chunks 2 (Core.batchFilter Core.St.init ["a", "b", "c"]),
          b.length ≤ 2)
      ∧ (∀ n, Core.inflight ((Core.burstTrace 2 (fun _ => true)
            (Core.batchFilter Core.St.init ["a", "b", "c"])).take n) ≤ (2 : Int))) :=
  ⟨by decide, claim_C2 Core.St.init ["a", "b", "c"] 2 (fun _ => true) (by decide)⟩

/-- C3, counterexample: on a two-slide deck with lookahead 1 at position 0,
the claimed navigation priority set (`max(0,P) .. min(P+L,S-1)`, the union
of both slides) contains slide 0's URL, but the batch variant's navigation
collection starts at slide `P+1` and misses it. -/
theorem claim_C3_counterexample :
    "a" ∈ Spec.forwardWindowUnion [["a"], ["b"]] 0 1
    ∧ "a" ∉ Core.upcomingUrls [["a"], ["b"]] 0 1 := by
  decide

/-- C3, amended: the batch variant's startup set equals the spec's forward
window union `max(0,P)..min(P+L,S-1)`; the bidirectional variant's startup
slice and navigation set both equal the bidirectional union
`max(0,P-L)..min(P+L,S-1)`; but the batch variant's navigation set equals
the union over `P+1 .. min(P+L,S-1)`, excluding the current slide; and
every index the bidirectional navigation loop visits is inside the deck. -/
theorem claim_C3 (imgs : List (List String)) (p l : Nat) (u : String) :
    (u ∈ Core.highPriorityUrls imgs p l ↔ u ∈ Spec.forwardWindowUnion imgs p l)
    ∧ (u ∈ (Main.priorityWindowSlides imgs p l).flatten ↔
        u ∈ Spec.bidiWindowUnion imgs p l)
    ∧ (u ∈ Main.navWindowUrls imgs p l ↔ u ∈ Spec.bidiWindowUnion imgs p l)
    ∧ (u ∈ Core.upcomingUrls imgs p l ↔
        (∃ j, p + 1 ≤ j ∧ j ≤ p + l ∧ u ∈ (imgs[j]?).getD []))
    ∧ (∀ i ∈ Main.navAccessedIndices imgs.length p l, i < imgs.length) := by
  refine ⟨?_, ?_, ?_, mem_upcomingUrls imgs p l u, ?_⟩
  · rw [mem_highPriorityUrls, mem_forwardWindowUnion]
  · rw [mem_priorityWindowSlides, mem_bidiWindowUnion]
  · rw [mem_navWindowUrls, mem_bidiWindowUnion]
  · intro i hi
    have hr := List.mem_range'_1.mp hi
    unfold Main.navAccessedIndices at hi
    omega

/-- C3, witness at a concrete deck. -/
theorem claim_C3_witness :
    "b" ∈ Core.highPriorityUrls [["a"], ["b"]] 0 1 ↔
      "b" ∈ Spec.forwardWindowUnion [["a"], ["b"]] 0 1 :=
  (claim_C3 [["a"], ["b"]] 0 1 "b").1

/-- C5: an already-loaded URL is never re-requested — the priority burst,
the idle background drain, and the primary setup's per-slide preloading all
leave its request count unchanged, and `loaded` membership is preserved. -/
theorem claim_C5 (s : Core.St) (urls : List String) (c : Nat) (f : String → Bool)
    (url : String) (h : url ∈ s.loaded) :
    (Core.preloadBatchRun s urls c f).requests.count url = s.requests.count url
    ∧ url ∈ (Core.preloadBatchRun s urls c f).loaded
    ∧ (Core.idleDrainDispatch s urls c).requests.count url = s.requests.count url
    ∧ url ∈ (Core.idleDrainDispatch s urls c).loaded
    ∧ (∀ (ms : Main.MSt) (imgs : List String) (g : String → Bool), url ∈ ms.loaded →
        (Main.preloadSlideRun ms imgs g).requests.count url = ms.requests.count url
        ∧ url ∈ (Main.preloadSlideRun ms imgs g).loaded) := by
  have hbatch :
      url ∈ (Core.preloadBatchRun s urls c f).loaded
      ∧ (Core.preloadBatchRun s urls c f).requests.count url
          = s.requests.count url := by
    unfold Core.preloadBatchRun
    refine foldl_inv_mem
      (fun t => url ∈ t.loaded ∧ t.requests.count url = s.requests.count url)
      (fun t b => Core.runAll t b f) _ (fun t b _ hP => ?_) s ⟨h, rfl⟩
    unfold Core.runAll
    refine foldl_inv_mem
      (fun t => url ∈ t.loaded ∧ t.requests.count url = s.requests.count url)
      (fun t2 u => Core.preloadImageRun t2 u (f u)) b (fun t2 u _ hP2 => ?_) t hP
    exact ⟨Core.loaded_mem_preloadImageRun t2 u (f u) url hP2.1,
      by rw [Core.count_preloadImageRun_loaded t2 u (f u) url hP2.1]; exact hP2.2⟩
  have hidle :
      url ∈ (Core.idleDrainDispatch s urls c).loaded
      ∧ (Core.idleDrainDispatch s urls c).requests.count url
          = s.requests.count url := by
    unfold Core.idleDrainDispatch
    refine foldl_inv_mem
      (fun t => url ∈ t.loaded ∧ t.requests.count url = s.requests.count url)
      (fun t (b : List String) => b.foldl Core.idleStep t) _
      (fun t b _ hP => ?_) s ⟨h, rfl⟩
    refine foldl_inv_mem
      (fun t => url ∈ t.loaded ∧ t.requests.count url = s.requests.count url)
      Core.idleStep b (fun t2 u _ hP2 => ?_) t hP
    exact ⟨Core.loaded_mem_idleStep t2 u url hP2.1,
      by rw [Core.count_idleStep_loaded t2 u url hP2.1]; exact hP2.2⟩
  refine ⟨hbatch.2, hbatch.1, hidle.2, hidle.1, ?_⟩
  intro ms imgs g hms
  have hmain :
      url ∈ (Main.preloadSlideRun ms imgs g).loaded
      ∧ (Main.preloadSlideRun ms imgs g).requests.count url
          = ms.requests.count url := by
    unfold Main.preloadSlideRun
    refine foldl_inv_mem
      (fun t => url ∈ t.loaded ∧ t.requests.count url = ms.requests.count url)
      _ _ (fun t u _ hP => ?_) ms ⟨hms, rfl⟩
    exact ⟨Main.loaded_mem_preloadRun t u (g u) url hP.1,
      by rw [Main.count_preloadRun_loaded t u (g u) url hP.1]; exact hP.2⟩
  exact ⟨hmain.2, hmain.1⟩

/-- C5, witness at a state with `x` already loaded. -/
theorem claim_C5_witness :
    "x" ∈ (⟨[], [], ["x"], [], []⟩ : Core.St).loaded
    ∧ ((Core.preloadBatchRun ⟨[], [], ["x"], [], []⟩ ["x", "y"] 2
          (fun _ => true)).requests.count "x"
        = (⟨[], [], ["x"], [], []⟩ : Core.St).requests.count "x"
      ∧ "x" ∈ (Core.preloadBatchRun ⟨[], [], ["x"], [], []⟩ ["x", "y"] 2
          (fun _ => true)).loaded
      ∧ (Core.idleDrainDispatch ⟨[], [], ["x"], [], []⟩ ["x", "y"] 2).requests.count "x"
        = (⟨[], [], ["x"], [], []⟩ : Core.St).requests.count "x"
      ∧ "x" ∈ (Core.idleDrainDispatch ⟨[], [], ["x"], [], []⟩ ["x", "y"] 2).loaded
      ∧ (∀ (ms : Main.MSt) (imgs : List String) (g : String → Bool),
          "x" ∈ ms.loaded →
          (Main.preloadSlideRun ms imgs g).requests.count "x"
            = ms.requests.count "x"
          ∧ "x" ∈ (Main.preloadSlideRun ms imgs g).loaded)) :=
  ⟨by decide,
    claim_C5 ⟨[], [], ["x"], [], []⟩ ["x", "y"] 2 (fun _ => true) "x" (by decide)⟩

/-- C6, counterexample: after `x.png` fails, the primary setup's next
`preload` pass issues a second network request for it (nothing records the
failure), and the batch variant's idle drain dispatches a request for a URL
already in `failed` (its guard checks only `loaded` and `loading`). -/
theorem claim_C6_counterexample :
    (Main.preloadRun (Main.preloadRun ⟨[], [], []⟩ "x.png" false) "x.png"
        true).requests.count "x.png" = 2
    ∧ "x.png" ∈ (⟨[], [], [], ["x.png"], []⟩ : Core.St).failed
    ∧ (Core.idleDrainDispatch ⟨[], [], [], ["x.png"], []⟩ ["x.png"] 2).requests
        = ["x.png"] := by
  decide

/-- C6, amended: a URL already in `failed` is excluded by `preloadBatch`'s
queue filter, so the bounded-batch duty (priority burst and batch-variant
navigation pass) never re-requests it, and `failed` membership persists;
the idle drain and the primary setup's `preload`, which check only
`loaded`/`loading`, can re-dispatch failed URLs. -/
theorem claim_C6 (s : Core.St) (urls : List String) (c : Nat) (f : String → Bool)
    (url : String) (h : url ∈ s.failed) :
    (Core.preloadBatchRun s urls c f).requests.count url = s.requests.count url
    ∧ url ∈ (Core.preloadBatchRun s urls c f).failed := by
  have hq : url ∉ Core.batchFilter s urls := by
    intro hmem
    rcases List.mem_filter.mp hmem with ⟨_, hcond⟩
    simp only [Bool.and_eq_true, decide_eq_true_eq] at hcond
    exact hcond.2 h
  have hmain :
      url ∈ (Core.preloadBatchRun s urls c f).failed
      ∧ (Core.preloadBatchRun s urls c f).requests.count url
          = s.requests.count url := by
    unfold Core.preloadBatchRun
    refine foldl_inv_mem
      (fun t => url ∈ t.failed ∧ t.requests.count url = s.requests.count url)
      (fun t b => Core.runAll t b f) _ (fun t b hbmem hP => ?_) s ⟨h, rfl⟩
    unfold Core.runAll
    refine foldl_inv_mem
      (fun t => url ∈ t.failed ∧ t.requests.count url = s.requests.count url)
      (fun t2 u => Core.preloadImageRun t2 u (f u)) b (fun t2 u humem hP2 => ?_) t hP
    have hne : u ≠ url := fun he =>
      hq (he ▸ mem_of_mem_chunks c (Core.batchFilter s urls) b u hbmem humem)
    exact ⟨Core.failed_mem_preloadImageRun t2 u (f u) url hP2.1,
      by rw [Core.count_preloadImageRun_ne t2 u (f u) url hne]; exact hP2.2⟩
  exact ⟨hmain.2, hmain.1⟩

/-- C6, witness at a state with `x` already failed. -/
theorem claim_C6_witness :
    "x" ∈ (⟨[], [], [], ["x"], []⟩ : Core.St).failed
    ∧ ((Core.preloadBatchRun ⟨[], [], [], ["x"], []⟩ ["x", "y"] 2
          (fun _ => true)).requests.count "x"
        = (⟨[], [], [], ["x"], []⟩ : Core.St).requests.count "x"
      ∧ "x" ∈ (Core.preloadBatchRun ⟨[], [], [], ["x"], []⟩ ["x", "y"] 2
          (fun _ => true)).failed) :=
  ⟨by decide,
    claim_C6 ⟨[], [], [], ["x"], []⟩ ["x", "y"] 2 (fun _ => true) "x" (by decide)⟩

/-- Dispatch phase of the component's `preloadAll`: the cache is untouched
(only `onload` writes it) and the requests issued are exactly the URLs not
already cached, in order. -/
theorem component_dispatch_spec :
    ∀ (urls : List String) (s : Component.CSt),
      (urls.foldl (fun t u => (Component.preloadImageStart t u).1) s).requests
        = s.requests ++ urls.filter (fun u => decide (u ∉ s.preloadedUrls))
      ∧ (urls.foldl (fun t u => (Component.preloadImageStart t u).1) s).preloadedUrls
        = s.preloadedUrls := by
  intro urls
  induction urls with
  | nil => intro s; simp
  | cons u us ih =>
    intro s
    by_cases hu : u ∈ s.preloadedUrls
    · have hstart : (Component.preloadImageStart s u).1 = s := by
        simp [Component.preloadImageStart, hu]
      rcases ih s with ⟨h1, h2⟩
      simp only [List.foldl_cons, hstart]
      refine ⟨?_, h2⟩
      rw [h1, List.filter_cons]
      simp [hu]
    · have hstart : (Component.preloadImageStart s u).1
          = ⟨s.preloadedUrls, s.requests ++ [u]⟩ := by
        simp [Component.preloadImageStart, hu]
      rcases ih ⟨s.preloadedUrls, s.requests ++ [u]⟩ with ⟨h1, h2⟩
      simp only [List.foldl_cons, hstart]
      refine ⟨?_, h2⟩
      rw [h1, List.filter_cons]
      simp [hu]

/-- C9: the `PreloadImages` component registers `preloadAll` both as its
mounted hook and as a deep watcher on `props.urls`, and one `preloadAll`
invocation dispatches requests for exactly the not-yet-cached URLs of its
input list, all before any completion, over its own cache state. -/
theorem claim_C9 :
    Component.decl.watchDeep = true
    ∧ Component.decl.onMountedHandler = Component.preloadAllDispatch
    ∧ Component.decl.watchHandler = Component.preloadAllDispatch
    ∧ (∀ (s : Component.CSt) (urls : List String),
        (Component.preloadAllDispatch s urls).requests
          = s.requests ++ urls.filter (fun u => decide (u ∉ s.preloadedUrls))
        ∧ (Component.preloadAllDispatch s urls).preloadedUrls
          = s.preloadedUrls) := by
  refine ⟨rfl, rfl, rfl, ?_⟩
  intro s urls
  unfold Component.preloadAllDispatch
  by_cases he : urls.isEmpty
  · have : urls = [] := List.isEmpty_iff.mp he
    subst this
    simp
  · rw [if_neg he]
    exact component_dispatch_spec urls s

/-- C9, witness at a concrete URL list with one URL already cached. -/
theorem claim_C9_witness :
    (Component.preloadAllDispatch ⟨["/a.png"], []⟩ ["/a.png", "/b.png"]).requests
      = ([] : List String)
        ++ ["/a.png", "/b.png"].filter
            (fun u => decide (u ∉ (⟨["/a.png"], []⟩ : Component.CSt).preloadedUrls))
    ∧ (Component.preloadAllDispatch ⟨["/a.png"], []⟩ ["/a.png", "/b.png"]).preloadedUrls
      = (⟨["/a.png"], []⟩ : Component.CSt).preloadedUrls :=
  claim_C9.2.2.2 ⟨["/a.png"], []⟩ ["/a.png", "/b.png"]

/-- C10: `ahead` defaults to 0 in the primary setup; with `ahead = 0` the
startup phase preloads every slide's image set in parallel, registers no
navigation watcher and schedules no background drain; any `ahead > 0`
registers the watcher. -/
theorem claim_C10 (cfg : Config) (slides : List Slide) (cur : Option Nat)
    (h : cfg.enabled ≠ some false) :
    ((cfg.ahead = none ∨ cfg.ahead = some 0) →
      Main.appSetup cfg true slides cur =
        some ⟨0, slides.map Main.getSlideImages, slides.map Main.getSlideImages,
          [], [], false⟩)
    ∧ (∀ k : Nat, cfg.ahead = some (k + 1) →
        ∃ plan : Main.Plan, Main.appSetup cfg true slides cur = some plan
          ∧ plan.watcherRegistered = true ∧ plan.ahead = k + 1) := by
  constructor
  · intro hah
    unfold Main.appSetup
    rw [if_neg (by simp), if_neg h]
    rcases hah with hah | hah <;> rw [hah] <;> simp
  · intro k hk
    unfold Main.appSetup
    rw [if_neg (by simp), if_neg h, hk]
    simp only [Option.getD_some]
    rw [if_neg (by omega)]
    exact ⟨_, rfl, rfl, rfl⟩

/-- C10, witness at the empty configuration (every option absent). -/
theorem claim_C10_witness :
    (⟨none, none, none, none, none⟩ : Config).enabled ≠ some false
    ∧ ((((⟨none, none, none, none, none⟩ : Config).ahead = none
          ∨ (⟨none, none, none, none, none⟩ : Config).ahead = some 0) →
        Main.appSetup ⟨none, none, none, none, none⟩ true [] none =
          some ⟨0, ([] : List Slide).map Main.getSlideImages,
            ([] : List Slide).map Main.getSlideImages, [], [], false⟩)
      ∧ (∀ k : Nat, (⟨none, none, none, none, none⟩ : Config).ahead = some (k + 1) →
          ∃ plan : Main.Plan,
            Main.appSetup ⟨none, none, none, none, none⟩ true [] none = some plan
            ∧ plan.watcherRegistered = true ∧ plan.ahead = k + 1)) :=
  ⟨by decide, claim_C10 ⟨none, none, none, none, none⟩ [] none (by decide)⟩


end Claims
